import Mathlib

/-!
Verification of the SmartArt diagram / chart-category core of this
repository, as a shallow embedding in Lean.

Diagram side (src/pptx/oxml/diagram.py, src/pptx/shapes/smartart.py,
src/pptx/parts/diagram.py): a diagram point holds an optional model id,
an optional type string and an optional text container; the text container
is modelled as the document-ordered list of the texts of its nested
a:t run elements.  A drawing (cache) part is modelled as the
document-ordered list of the texts of its a:t cells.

Chart-category side (src/pptx/chart/category.py): the xChart element and
its c:cat substructure are collaborators outside the embedded sources and
are modelled from the spec where noted.
-/

/-- A dgm:pt element: optional modelId and type attributes plus an optional
dgm:t text container holding the document-ordered texts of its a:t runs. -/
structure CT_DiagramPoint where
  modelId : Option String
  type : Option String
  t : Option (List String)
deriving DecidableEq, Repr

namespace CT_DiagramPoint

/-- CT_DiagramPoint.text getter: empty string when there is no text
container, otherwise the concatenation of the truthy (non-empty) run
texts in document order. -/
def text (pt : CT_DiagramPoint) : String :=
  match pt.t with
  | none => ""
  | some runs => String.join (runs.filter (fun s => !s.isEmpty))

/-- CT_DiagramPoint.text setter: no-op when there is no text container or
no run elements; otherwise writes value into the first run and clears
every subsequent run to the empty string. -/
def set_text (pt : CT_DiagramPoint) (value : String) : CT_DiagramPoint :=
  match pt.t with
  | none => pt
  | some runs =>
    match runs with
    | [] => pt
    | _ :: rest => { pt with t := some (value :: rest.map (fun _ => "")) }

end CT_DiagramPoint

/-- _SmartArtNodes.__iter__: each pt of the point list in document order,
skipping points whose type is "pres", "parTrans" or "sibTrans". -/
def smartart_nodes_iter (ptLst : List CT_DiagramPoint) : List CT_DiagramPoint :=
  ptLst.filter fun pt =>
    !(pt.type == some "pres" || pt.type == some "parTrans" || pt.type == some "sibTrans")

/-- _SmartArtNodes.__len__: sum of 1 over the iteration. -/
def smartart_nodes_len (ptLst : List CT_DiagramPoint) : Nat :=
  (smartart_nodes_iter ptLst).foldl (fun n _ => n + 1) 0

/-- SmartArt.iter_text: the text of each iterated node, yielded only when
it is non-empty. -/
def smartart_iter_text (ptLst : List CT_DiagramPoint) : List String :=
  (smartart_nodes_iter ptLst).foldr
    (fun pt acc => if pt.text.isEmpty then acc else pt.text :: acc) []

/-- SmartArt.text_content: list(iter_text()). -/
def smartart_text_content (ptLst : List CT_DiagramPoint) : List String :=
  smartart_iter_text ptLst

/-- DiagramDrawingPart.update_all_text_elements: cell idx receives
text_list idx while idx is in range of text_list; later cells are left
unmodified and extra texts are dropped. -/
def update_all_text_elements : List String → List String → List String
  | [], _ => []
  | c :: cs, [] => c :: cs
  | _ :: cs, txt :: ts => txt :: update_all_text_elements cs ts

/-- State of one SmartArt shape: the dgm:pt list of the data part and,
for each diagram-drawing cache part reachable from the owning slide part
by the DIAGRAM_DRAWING relationship type, the document-ordered list of
its a:t cell texts. -/
structure SmartArtState where
  ptLst : List CT_DiagramPoint
  drawing_parts : List (List String)
deriving DecidableEq, Repr

/-- SmartArt._sync_drawing_part: collects text_content once and updates
every reachable drawing part with it. -/
def sync_drawing_part (s : SmartArtState) : SmartArtState :=
  let texts := smartart_text_content s.ptLst
  { s with drawing_parts := s.drawing_parts.map fun cells => update_all_text_elements cells texts }

/-- SmartArtNode.text setter for the node at position j of the point
list: writes the text into the data-model point, then syncs every
reachable drawing part. -/
def set_node_text (s : SmartArtState) (j : Nat) (value : String) : SmartArtState :=
  match s.ptLst.get? j with
  | none => s
  | some pt => sync_drawing_part { s with ptLst := s.ptLst.set j (pt.set_text value) }

/-- A c:pt element of a category string cache level: an idx attribute and
the text of its c:v child. -/
structure CatPt where
  idx : Nat
  v : String
deriving DecidableEq, Repr

/-- Category label: empty string for a placeholder (missing c:pt element),
otherwise pt.v.text. -/
def catLabel : Option CatPt → String
  | none => ""
  | some pt => pt.v

/-- Modelled from the spec: the c:cat element of an xChart (oxml chart
layer, outside the embedded sources).  multiLvlStrRef is present iff the
reference is multi-level, and then carries the ordered c:lvl elements
(leaf level first), each an ordered list of c:pt entries; str_cache is
the cached string-list sibling structure kept consistent on relabel. -/
structure CatData where
  multiLvlStrRef : Option (List (List CatPt))
  str_cache : List String
deriving DecidableEq, Repr

/-- Modelled from the spec: cat.lvls finds the c:lvl elements under
multiLvlStrRef, so it is empty for a flat (strRef) reference. -/
def CatData.lvls (cat : CatData) : List (List CatPt) :=
  match cat.multiLvlStrRef with
  | none => []
  | some ls => ls

/-- Modelled from the spec: the parts of an xChart element the category
collection reads.  cat is the optional c:cat element; cat_pts is the
leaf entry at each declared position, materializing a placeholder (none)
for positions with no backing element; cat_pt_count is the declared
leaf-count integer c:cat//c:ptCount/@val, independent of how many
explicit elements are present. -/
structure XChart where
  cat : Option CatData
  cat_pts : List (Option CatPt)
  cat_pt_count : Nat
deriving DecidableEq, Repr

/-- Modelled from the spec: chart part owning the embedded workbook; its
workbook service replaces the stored category labels on
update_categories. -/
structure ChartPart where
  workbook_categories : List String
deriving DecidableEq, Repr

/-- The Categories collection: an xChart element plus an optional chart
part. -/
structure Categories where
  xChart : XChart
  chart_part : Option ChartPart
deriving DecidableEq, Repr

namespace Categories

/-- Categories.__len__: the declared leaf count, not the number of
present c:pt elements. -/
def len (c : Categories) : Nat :=
  c.xChart.cat_pt_count

/-- Categories.depth: 0 with no c:cat element, 1 for a flat reference,
otherwise the number of c:lvl elements. -/
def depth (c : Categories) : Nat :=
  match c.xChart.cat with
  | none => 0
  | some cat =>
    match cat.multiLvlStrRef with
    | none => 1
    | some lvls => lvls.length

/-- Categories.levels: one CategoryLevel per c:lvl element, leaf level
first; empty when there is no c:cat element. -/
def levels (c : Categories) : List (List CatPt) :=
  match c.xChart.cat with
  | none => []
  | some cat => cat.lvls

end Categories

/-- The scan inside Categories._parentage: starting from the level's
first entry, each entry whose idx does not exceed the leaf idx becomes
the candidate parent; the scan stops at the first entry whose idx
exceeds it. -/
def scanParent (leafIdx : Nat) : CatPt → List CatPt → CatPt
  | parent, [] => parent
  | parent, c :: cs => if c.idx > leafIdx then parent else scanParent leafIdx c cs

/-- Categories._parentage: recursively extends the chain with the parent
found in each next level, keyed on the idx of the chain's first (leaf)
entry; stops when levels are exhausted or the next level is empty. -/
def parentage : List CatPt → List (List CatPt) → List CatPt
  | categories, [] => categories
  | categories, lvl :: remaining =>
    match lvl, categories with
    | [], _ => categories
    | _ :: _, [] => []
    | p0 :: ps, leaf :: _ =>
      parentage (categories ++ [scanParent leaf.idx p0 (p0 :: ps)]) remaining

namespace Categories

/-- Categories._iter_flattened_categories: a child-to-parent chain per
leaf-level entry; nothing when there are no levels. -/
def iter_flattened_categories (c : Categories) : List (List CatPt) :=
  match c.levels with
  | [] => []
  | leaf_level :: remaining_levels =>
    leaf_level.map fun category => parentage [category] remaining_levels

/-- Categories.flattened_labels: empty with no c:cat element; singleton
label tuples (from cat_pts, placeholders as empty labels) for a flat
reference; otherwise the reversed (parent-to-child) label chain per
leaf. -/
def flattened_labels (c : Categories) : List (List String) :=
  match c.xChart.cat with
  | none => []
  | some cat =>
    match cat.multiLvlStrRef with
    | none => c.xChart.cat_pts.map fun pt => [catLabel pt]
    | some _ =>
      c.iter_flattened_categories.map fun flat_cat => flat_cat.reverse.map fun p => p.v

end Categories

/-- The error outcomes of Categories.update_all. -/
inductive UpdateError
  | lengthMismatch
  | chartPartNotAvailable
deriving DecidableEq, Repr

/-- Categories.update_all: validates the new label count against len(self)
and the availability of the chart part before mutating anything; on
success updates the embedded workbook categories and, when a c:cat
element exists, its cached string representation.  Errors return the
collection unchanged. -/
def Categories.update_all (c : Categories) (new_categories : List String) :
    Categories × Option UpdateError :=
  if new_categories.length ≠ c.len then
    (c, some UpdateError.lengthMismatch)
  else
    match c.chart_part with
    | none => (c, some UpdateError.chartPartNotAvailable)
    | some cp =>
      let cp' : ChartPart := { cp with workbook_categories := new_categories }
      let xChart' : XChart :=
        match c.xChart.cat with
        | none => c.xChart
        | some cat => { c.xChart with cat := some { cat with str_cache := new_categories } }
      ({ xChart := xChart', chart_part := some cp' }, none)

/-- Specification-side counterpart for one level of the parentage scan:
the last entry of the longest prefix of entries whose idx does not exceed
the leaf idx, defaulting to the level's first entry; none for an empty
level. -/
def parentOfSpec (i : Nat) : List CatPt → Option CatPt
  | [] => none
  | p0 :: ps => some (((p0 :: ps).takeWhile fun c => decide (c.idx ≤ i)).getLastD p0)

/-- Specification-side ancestor chain keyed on the original leaf idx,
truncating at the first empty level. -/
def chainSpec (i : Nat) : List (List CatPt) → List CatPt
  | [] => []
  | lvl :: rest =>
    match parentOfSpec i lvl with
    | none => []
    | some p => p :: chainSpec i rest

/-! Helper lemmas. -/

theorem join_filter_first_cleared (v : String) (k : Nat) :
    String.join ((v :: List.replicate k "").filter fun s => !s.isEmpty) = v := by
  have h0 : (("" : String).isEmpty) = true := rfl
  have hrep : (List.replicate k "").filter (fun s => !s.isEmpty) = [] := by
    induction k with
    | zero => rfl
    | succ n ih => simp [List.replicate_succ, List.filter_cons, h0, ih]
  by_cases hv : v.isEmpty
  · have hv' : v = "" := (String.isEmpty_iff v).mp hv
    subst hv'
    simp [List.filter_cons, h0, hrep, String.join]
  · simp [List.filter_cons, hv, hrep, String.join]

theorem foldl_succ_eq_length {α : Type} (l : List α) (k : Nat) :
    l.foldl (fun n _ => n + 1) k = k + l.length := by
  induction l generalizing k with
  | nil => simp
  | cons a l ih => simp [List.foldl, ih, Nat.add_assoc, Nat.add_comm 1 l.length]

theorem foldr_text_filter (l : List CT_DiagramPoint) :
    l.foldr (fun pt acc => if pt.text.isEmpty then acc else pt.text :: acc) []
      = (l.map CT_DiagramPoint.text).filter fun t => !t.isEmpty := by
  induction l with
  | nil => rfl
  | cons pt l ih =>
    by_cases h : pt.text.isEmpty
    · simp [List.foldr, ih, h, List.filter_cons]
    · simp [List.foldr, ih, h, List.filter_cons]

theorem update_all_text_elements_length (cells texts : List String) :
    (update_all_text_elements cells texts).length = cells.length := by
  induction cells generalizing texts with
  | nil => cases texts <;> rfl
  | cons c cs ih =>
    cases texts with
    | nil => rfl
    | cons t ts => simp [update_all_text_elements, ih]

theorem update_all_text_elements_getD (cells texts : List String) (i : Nat)
    (h : i < cells.length) :
    (update_all_text_elements cells texts).getD i ""
      = if i < texts.length then texts.getD i "" else cells.getD i "" := by
  induction cells generalizing texts i with
  | nil => simp at h
  | cons c cs ih =>
    cases texts with
    | nil => simp [update_all_text_elements]
    | cons t ts =>
      cases i with
      | zero => simp [update_all_text_elements]
      | succ n =>
        have hn : n < cs.length := by simpa using h
        simp only [update_all_text_elements, List.getD_cons_succ]
        rw [ih ts n hn]
        simp [Nat.succ_lt_succ_iff]

theorem getD_map_of_lt {α β : Type} (f : α → β) (l : List α) (k : Nat) (d : α) (d' : β)
    (h : k < l.length) :
    (l.map f).getD k d' = f (l.getD k d) := by
  induction l generalizing k with
  | nil => simp at h
  | cons a l ih =>
    cases k with
    | zero => rfl
    | succ n =>
      have hn : n < l.length := by simpa using h
      simp only [List.map_cons, List.getD_cons_succ]
      exact ih n hn

/-! Claims about the SmartArt diagram side. -/

/-- Claim C4: setting a node's text when its text container holds at
least one run writes the value into the first run, clears every
subsequent run to the empty string, and a subsequent read returns
exactly the value written. -/
theorem claim_C4 (pt : CT_DiagramPoint) (runs : List String) (v : String)
    (ht : pt.t = some runs) (hn : runs ≠ []) :
    (pt.set_text v).t = some (v :: List.replicate (runs.length - 1) "") ∧
    (pt.set_text v).text = v := by
  cases runs with
  | nil => exact absurd rfl hn
  | cons r rest =>
    have hset : pt.set_text v = { pt with t := some (v :: rest.map fun _ => "") } := by
      unfold CT_DiagramPoint.set_text
      rw [ht]
    rw [hset]
    constructor
    · simp [List.map_const, List.length_cons]
    · show String.join ((v :: rest.map fun _ => "").filter fun s => !s.isEmpty) = v
      have hmap : rest.map (fun _ => ("" : String)) = List.replicate rest.length "" := by
        simp [List.map_const]
      rw [hmap]
      exact join_filter_first_cleared v rest.length

/-- Witness for claim C4 at a three-run container. -/
theorem claim_C4_witness :
    (CT_DiagramPoint.set_text ⟨none, none, some ["a", "b", "c"]⟩ "X").t
      = some ("X" :: List.replicate ((["a", "b", "c"] : List String).length - 1) "") ∧
    (CT_DiagramPoint.set_text ⟨none, none, some ["a", "b", "c"]⟩ "X").text = "X" :=
  claim_C4 ⟨none, none, some ["a", "b", "c"]⟩ ["a", "b", "c"] "X" rfl (by simp)

/-- Claim C5: node iteration yields the points in document order with
every point typed "pres", "parTrans" or "sibTrans" excluded, and the
collection's count equals the length of this filtered iteration. -/
theorem claim_C5 (ptLst : List CT_DiagramPoint) :
    List.Sublist (smartart_nodes_iter ptLst) ptLst ∧
    (∀ pt : CT_DiagramPoint, pt ∈ smartart_nodes_iter ptLst ↔
      pt ∈ ptLst ∧ pt.type ≠ some "pres" ∧ pt.type ≠ some "parTrans"
        ∧ pt.type ≠ some "sibTrans") ∧
    smartart_nodes_len ptLst = (smartart_nodes_iter ptLst).length := by
  refine ⟨List.filter_sublist _, ?_, ?_⟩
  · intro pt
    simp [smartart_nodes_iter, List.mem_filter, not_or, and_assoc]
  · show (smartart_nodes_iter ptLst).foldl (fun n _ => n + 1) 0 = _
    rw [foldl_succ_eq_length]
    exact Nat.zero_add _

/-- Claim C8: setting the text of a node that has no text container is a
silent no-op leaving the element unchanged, and reading the text of such
a node returns the empty string. -/
theorem claim_C8 (pt : CT_DiagramPoint) (v : String) (h : pt.t = none) :
    pt.set_text v = pt ∧ pt.text = "" := by
  constructor
  · unfold CT_DiagramPoint.set_text
    rw [h]
  · unfold CT_DiagramPoint.text
    rw [h]

/-- Witness for claim C8 at a container-less node. -/
theorem claim_C8_witness :
    CT_DiagramPoint.set_text ⟨none, none, none⟩ "X" = ⟨none, none, none⟩ ∧
    CT_DiagramPoint.text ⟨none, none, none⟩ = "" :=
  claim_C8 ⟨none, none, none⟩ "X" rfl

/-- Claim C10: iter_text (and hence text_content, the sequence handed to
cache targets by the sync) yields exactly the non-empty texts of the
iterated (non-metadata) nodes, in order; every yielded text is
non-empty. -/
theorem claim_C10 (ptLst : List CT_DiagramPoint) (s : SmartArtState) :
    smartart_iter_text ptLst
      = ((smartart_nodes_iter ptLst).map CT_DiagramPoint.text).filter (fun t => !t.isEmpty) ∧
    (smartart_iter_text ptLst).all (fun t => !t.isEmpty) = true ∧
    smartart_text_content ptLst = smartart_iter_text ptLst ∧
    (sync_drawing_part s).drawing_parts
      = s.drawing_parts.map fun cells =>
          update_all_text_elements cells (smartart_text_content s.ptLst) := by
  have h1 : smartart_iter_text ptLst
      = ((smartart_nodes_iter ptLst).map CT_DiagramPoint.text).filter (fun t => !t.isEmpty) :=
    foldr_text_filter _
  refine ⟨h1, ?_, rfl, rfl⟩
  rw [h1, List.all_eq_true]
  intro t ht
  exact (List.mem_filter.mp ht).2

/-! Claims about the chart category side. -/

theorem scanParent_eq_takeWhile (i : Nat) (p : CatPt) (l : List CatPt) :
    scanParent i p l = (l.takeWhile fun c => decide (c.idx ≤ i)).getLastD p := by
  induction l generalizing p with
  | nil => rfl
  | cons c cs ih =>
    by_cases h : c.idx > i
    · have hd : (decide (c.idx ≤ i)) = false := by
        simp [Nat.not_le.mpr h]
      simp [scanParent, h, List.takeWhile_cons, hd]
    · have hle : c.idx ≤ i := Nat.not_lt.mp h
      have hd : (decide (c.idx ≤ i)) = true := by simp [hle]
      have h1 : scanParent i p (c :: cs) = scanParent i c cs := by
        simp [scanParent, h]
      have h2 : List.takeWhile (fun c => decide (c.idx ≤ i)) (c :: cs)
          = c :: List.takeWhile (fun c => decide (c.idx ≤ i)) cs := by
        simp [List.takeWhile_cons, hd]
      rw [h1, h2, List.getLastD_cons, ih]

theorem parentage_eq_chain (levels : List (List CatPt)) (leaf : CatPt) (rest : List CatPt) :
    parentage (leaf :: rest) levels = (leaf :: rest) ++ chainSpec leaf.idx levels := by
  induction levels generalizing rest with
  | nil => simp [parentage, chainSpec]
  | cons lvl rem ih =>
    cases lvl with
    | nil => simp [parentage, chainSpec, parentOfSpec]
    | cons p0 ps =>
      have h1 : parentage (leaf :: rest) ((p0 :: ps) :: rem)
          = parentage ((leaf :: rest) ++ [scanParent leaf.idx p0 (p0 :: ps)]) rem := rfl
      have h2 : (leaf :: rest) ++ [scanParent leaf.idx p0 (p0 :: ps)]
          = leaf :: (rest ++ [scanParent leaf.idx p0 (p0 :: ps)]) := rfl
      rw [h1, h2, ih]
      simp [chainSpec, parentOfSpec, scanParent_eq_takeWhile]

/-- Claim C2: the parent chosen in each higher level is found by a
predecessor scan keyed on the original leaf's idx: the candidate is
updated to each entry whose idx does not exceed the leaf idx, the scan
stops at the first entry whose idx exceeds it, and the level's first
entry is the fallback when every entry's idx exceeds the leaf idx.
Includes the spec's 2-level example (leaves 0-3, ancestors "A" at 0 and
"B" at 2) and the fallback example (leaf 0, ancestors starting at 1). -/
theorem claim_C2 (leaf : CatPt) (levels : List (List CatPt)) :
    parentage [leaf] levels = leaf :: chainSpec leaf.idx levels ∧
    Categories.flattened_labels
        ⟨⟨some ⟨some [[⟨0, "w"⟩, ⟨1, "x"⟩, ⟨2, "y"⟩, ⟨3, "z"⟩],
                      [⟨0, "A"⟩, ⟨2, "B"⟩]], []⟩, [], 4⟩, none⟩
      = [["A", "w"], ["A", "x"], ["B", "y"], ["B", "z"]] ∧
    parentage [⟨0, "leaf"⟩] [[⟨1, "P"⟩, ⟨2, "Q"⟩]] = [⟨0, "leaf"⟩, ⟨1, "P"⟩] := by
  refine ⟨?_, by decide, by decide⟩
  simpa using parentage_eq_chain levels leaf []

/-- Claim C3: update_all with a label sequence of the wrong length
reports a length-mismatch error, and with no chart part reachable
reports a not-available error; in either case the collection (workbook
and cached string representation included) is returned unchanged. -/
theorem claim_C3 (c : Categories) (new_categories : List String) :
    (new_categories.length ≠ c.len →
      c.update_all new_categories = (c, some UpdateError.lengthMismatch)) ∧
    (new_categories.length = c.len → c.chart_part = none →
      c.update_all new_categories = (c, some UpdateError.chartPartNotAvailable)) := by
  constructor
  · intro h
    simp [Categories.update_all, h]
  · intro h hcp
    simp [Categories.update_all, h, hcp]

/-- Witness for claim C3: an empty relabel against a declared count of 1
(length mismatch), and against a detached collection (no chart part). -/
theorem claim_C3_witness :
    Categories.update_all ⟨⟨none, [], 1⟩, none⟩ []
      = (⟨⟨none, [], 1⟩, none⟩, some UpdateError.lengthMismatch) ∧
    Categories.update_all ⟨⟨none, [], 0⟩, none⟩ []
      = (⟨⟨none, [], 0⟩, none⟩, some UpdateError.chartPartNotAvailable) :=
  ⟨(claim_C3 ⟨⟨none, [], 1⟩, none⟩ []).1 (by decide),
   (claim_C3 ⟨⟨none, [], 0⟩, none⟩ []).2 (by decide) rfl⟩

/-- Claim C6: depth is 0 with no c:cat element, 1 when a c:cat element
exists but holds only a flat (non-multi-level) reference, and otherwise
the number of explicit level elements. -/
theorem claim_C6 (pts : List (Option CatPt)) (n : Nat) (cp : Option ChartPart)
    (sc : List String) (lvls : List (List CatPt)) :
    Categories.depth ⟨⟨none, pts, n⟩, cp⟩ = 0 ∧
    Categories.depth ⟨⟨some ⟨none, sc⟩, pts, n⟩, cp⟩ = 1 ∧
    Categories.depth ⟨⟨some ⟨some lvls, sc⟩, pts, n⟩, cp⟩ = lvls.length :=
  ⟨rfl, rfl, rfl⟩

/-- Claim C7: when the next higher level is present but empty, the chain
built so far is returned as-is, and no level beyond the empty one is
consulted (the result does not depend on the remaining levels). -/
theorem claim_C7 (categories : List CatPt) (remaining : List (List CatPt)) :
    parentage categories ([] :: remaining) = categories := by
  cases categories <;> rfl

/-- Claim C9: a collection of depth 0 has no flattened labels and no
levels. -/
theorem claim_C9 (c : Categories) (h : c.depth = 0) :
    c.flattened_labels = [] ∧ c.levels = [] := by
  obtain ⟨⟨cat, pts, n⟩, cp⟩ := c
  cases cat with
  | none => exact ⟨rfl, rfl⟩
  | some catData =>
    obtain ⟨ml, sc⟩ := catData
    cases ml with
    | none => simp [Categories.depth] at h
    | some lvls =>
      have hlen : lvls.length = 0 := by simpa [Categories.depth] using h
      have hnil : lvls = [] := List.length_eq_zero.mp hlen
      subst hnil
      constructor
      · simp [Categories.flattened_labels, Categories.iter_flattened_categories,
          Categories.levels, CatData.lvls]
      · simp [Categories.levels, CatData.lvls]

/-- Witness for claim C9 at a collection with no c:cat element. -/
theorem claim_C9_witness :
    Categories.flattened_labels ⟨⟨none, [], 0⟩, none⟩ = [] ∧
    Categories.levels ⟨⟨none, [], 0⟩, none⟩ = [] :=
  claim_C9 ⟨⟨none, [], 0⟩, none⟩ rfl

/-! Claim C1: cache-target synchronization after a node text write. -/

/-- Counterexample to claim C1 as stated: the sequence propagated to a
cache target is not indexed by the nodes of the collection.  With two
non-metadata nodes whose texts after the write are "" and "B" and a
cache of two cells "c0", "c1", the claim predicts cells ["", "B"]
(cell i receives node i's text), but the code skips the empty text and
produces ["B", "c1"]. -/
theorem claim_C1_counterexample :
    (set_node_text
        ⟨[⟨none, none, some [""]⟩, ⟨none, none, some ["y"]⟩], [["c0", "c1"]]⟩
        1 "B").drawing_parts
      = [["B", "c1"]] ∧
    ([["B", "c1"]] : List (List String)) ≠ [["", "B"]] := by
  constructor
  · decide
  · decide

/-- Claim C1 as amended: after a successful text write, every reachable
cache target is overwritten positionally with the current text_content
sequence (the ordered non-empty texts of the non-metadata nodes): cell i
receives element i of that sequence for every index present in both,
cells beyond the sequence's length are left unmodified, and entries
beyond the cache's cell count are dropped (the cache keeps its cell
count). -/
theorem claim_C1_amended (s : SmartArtState) (j k i : Nat) (v : String)
    (hj : j < s.ptLst.length) (hk : k < s.drawing_parts.length)
    (hi : i < (s.drawing_parts.getD k []).length) :
    (set_node_text s j v).drawing_parts.length = s.drawing_parts.length ∧
    ((set_node_text s j v).drawing_parts.getD k []).length
      = (s.drawing_parts.getD k []).length ∧
    ((set_node_text s j v).drawing_parts.getD k []).getD i ""
      = (if i < (smartart_text_content (set_node_text s j v).ptLst).length
         then (smartart_text_content (set_node_text s j v).ptLst).getD i ""
         else (s.drawing_parts.getD k []).getD i "") := by
  have hset : set_node_text s j v
      = sync_drawing_part
          { s with ptLst := s.ptLst.set j ((s.ptLst.get ⟨j, hj⟩).set_text v) } := by
    unfold set_node_text
    rw [List.get?_eq_get hj]
  rw [hset]
  refine ⟨?_, ?_, ?_⟩
  · show (s.drawing_parts.map fun cells =>
        update_all_text_elements cells
          (smartart_text_content (s.ptLst.set j ((s.ptLst.get ⟨j, hj⟩).set_text v)))).length
      = s.drawing_parts.length
    exact List.length_map _ _
  · show ((s.drawing_parts.map fun cells =>
        update_all_text_elements cells
          (smartart_text_content (s.ptLst.set j ((s.ptLst.get ⟨j, hj⟩).set_text v)))).getD
          k []).length
      = (s.drawing_parts.getD k []).length
    rw [getD_map_of_lt _ _ _ [] [] hk, update_all_text_elements_length]
  · show ((s.drawing_parts.map fun cells =>
        update_all_text_elements cells
          (smartart_text_content (s.ptLst.set j ((s.ptLst.get ⟨j, hj⟩).set_text v)))).getD
          k []).getD i ""
      = _
    rw [getD_map_of_lt _ _ _ [] [] hk, update_all_text_elements_getD _ _ _ hi]
    rfl

/-- Witness for the amended claim C1: one node "r", one cache target with
cells "c0", "c1"; after writing "X" the cache reads ["X", "c1"]. -/
theorem claim_C1_amended_witness :
    (set_node_text ⟨[⟨none, none, some ["r"]⟩], [["c0", "c1"]]⟩ 0 "X").drawing_parts.length
      = ([["c0", "c1"]] : List (List String)).length ∧
    ((set_node_text ⟨[⟨none, none, some ["r"]⟩], [["c0", "c1"]]⟩ 0 "X").drawing_parts.getD
        0 []).length
      = (([["c0", "c1"]] : List (List String)).getD 0 []).length ∧
    ((set_node_text ⟨[⟨none, none, some ["r"]⟩], [["c0", "c1"]]⟩ 0 "X").drawing_parts.getD
        0 []).getD 0 ""
      = (if 0 < (smartart_text_content
            (set_node_text ⟨[⟨none, none, some ["r"]⟩], [["c0", "c1"]]⟩ 0 "X").ptLst).length
         then (smartart_text_content
            (set_node_text ⟨[⟨none, none, some ["r"]⟩], [["c0", "c1"]]⟩ 0 "X").ptLst).getD 0 ""
         else (([["c0", "c1"]] : List (List String)).getD 0 []).getD 0 "") :=
  claim_C1_amended ⟨[⟨none, none, some ["r"]⟩], [["c0", "c1"]]⟩ 0 0 0 "X"
    (by decide) (by decide) (by decide)
